import Mathlib

/-!
# Verification of the Instagram-Mini-Clone client state layer

Shallow embedding of the client-side state-synchronization core of the
repository (the `PostContext` provider, the `AuthContext` provider, the
feed pagination driver in `Feed.jsx`, and the UI action handlers in
`PostCard`/`PostDetail`/`CommentList`), together with theorems settling
the specification claims about them.

Conventions of the embedding:
* the normalized entity cache (a JS object keyed by post id) is an
  association list `List (Nat × Post)`; JS object-key lookup is
  `findPost`, key replacement is expressed with `List.map`;
* like/comment counts are `Nat` (the data model fixes them as
  non-negative integers); `Math.max(0, c - 1)` is the truncated `Nat`
  subtraction `c - 1`;
* an asynchronous network call is a parameter: `Bool` for
  success/failure of a mutating call, `Option Post` for the result of a
  fetch (`none` = the fetch rejects);
* a mutating action returns the final cache, the number of network
  calls it issued, and whether it re-raised an error.
-/

/-- A post entity as modeled client-side (spec §3): identifier, owner,
denormalized owner display data, image, caption, the mutable counters and
like flag, and the creation timestamp. -/
structure Post where
  id : Nat
  user_id : Nat
  username : String
  profile_pic_url : String
  image_url : String
  caption : String
  like_count : Nat
  is_liked : Bool
  comment_count : Nat
  created_at : Nat
deriving DecidableEq, Repr

/-- A partial record of post fields, mirroring the JS `updates` object
passed to `updatePost`: a field set to `none` is absent from the object
and left untouched by the spread merge. -/
structure PostUpdates where
  id : Option Nat := none
  user_id : Option Nat := none
  username : Option String := none
  profile_pic_url : Option String := none
  image_url : Option String := none
  caption : Option String := none
  like_count : Option Nat := none
  is_liked : Option Bool := none
  comment_count : Option Nat := none
  created_at : Option Nat := none
deriving DecidableEq, Repr

/-- The JS spread merge `{...existingPost, ...updates}`: every field
named in `updates` overwrites, every other field is kept. -/
def applyUpdates (p : Post) (u : PostUpdates) : Post where
  id := u.id.getD p.id
  user_id := u.user_id.getD p.user_id
  username := u.username.getD p.username
  profile_pic_url := u.profile_pic_url.getD p.profile_pic_url
  image_url := u.image_url.getD p.image_url
  caption := u.caption.getD p.caption
  like_count := u.like_count.getD p.like_count
  is_liked := u.is_liked.getD p.is_liked
  comment_count := u.comment_count.getD p.comment_count
  created_at := u.created_at.getD p.created_at

/-- The entity cache: `posts` state of `PostProvider`, a JS object keyed
by post id. -/
abbrev PostsMap := List (Nat × Post)

/-- JS object lookup `posts[postId]`, `null` when the key is absent
(`getPost` of `PostProvider`). -/
def findPost : PostsMap → Nat → Option Post
  | [], _ => none
  | (k, p) :: rest, postId => if k = postId then some p else findPost rest postId

/-- The source function `updatePost` of `PostProvider`: if the id is absent the previous
state is returned unchanged (no entry is created); otherwise the entry
is replaced by the spread merge of the existing post with `updates`. -/
def updatePost (m : PostsMap) (postId : Nat) (updates : PostUpdates) : PostsMap :=
  match findPost m postId with
  | none => m
  | some _ => m.map fun e => if e.1 = postId then (e.1, applyUpdates e.2 updates) else e

/-- The source function `setPost` of `PostProvider`: insert or wholesale-replace the entity
at its own id (`{...prev, [post.id]: post}`). -/
def setPost (m : PostsMap) (post : Post) : PostsMap :=
  match findPost m post.id with
  | none => m ++ [(post.id, post)]
  | some _ => m.map fun e => if e.1 = post.id then (e.1, post) else e

section CacheLemmas

lemma findPost_map_update_self (m : PostsMap) (postId : Nat) (u : PostUpdates) :
    findPost (m.map fun e => if e.1 = postId then (e.1, applyUpdates e.2 u) else e) postId
      = (findPost m postId).map (fun p => applyUpdates p u) := by
  induction m with
  | nil => rfl
  | cons e rest ih =>
    simp only [List.map_cons]
    by_cases h : e.1 = postId
    · rw [if_pos h]
      simp [findPost, h]
    · rw [if_neg h]
      simp [findPost, h, ih]

lemma findPost_map_update_other (m : PostsMap) (postId postId' : Nat) (u : PostUpdates)
    (h : postId' ≠ postId) :
    findPost (m.map fun e => if e.1 = postId then (e.1, applyUpdates e.2 u) else e) postId'
      = findPost m postId' := by
  induction m with
  | nil => rfl
  | cons e rest ih =>
    simp only [List.map_cons]
    by_cases he : e.1 = postId
    · have hne : e.1 ≠ postId' := by rw [he]; exact fun hc => h hc.symm
      rw [if_pos he]
      simp [findPost, hne, ih]
    · rw [if_neg he]
      by_cases he' : e.1 = postId'
      · simp [findPost, he']
      · simp [findPost, he', ih]

lemma findPost_updatePost_self (m : PostsMap) (postId : Nat) (u : PostUpdates) :
    findPost (updatePost m postId u) postId
      = (findPost m postId).map (fun p => applyUpdates p u) := by
  unfold updatePost
  cases h : findPost m postId with
  | none => simp [h]
  | some p => rw [findPost_map_update_self, h]

lemma findPost_updatePost_other (m : PostsMap) (postId postId' : Nat) (u : PostUpdates)
    (h : postId' ≠ postId) :
    findPost (updatePost m postId u) postId' = findPost m postId' := by
  unfold updatePost
  cases hf : findPost m postId with
  | none => rfl
  | some p => exact findPost_map_update_other m postId postId' u h

end CacheLemmas

/-- C6: `updatePost` with an absent identifier is a no-op creating no
entry; with a present identifier it overwrites exactly the named fields,
keeps every unnamed field of that entity, and leaves every other cache
entry unchanged. -/
theorem updatePost_patch_semantics (m : PostsMap) (postId : Nat) (u : PostUpdates) :
    (findPost m postId = none → updatePost m postId u = m) ∧
    (∀ p : Post, findPost m postId = some p →
      ∃ q : Post, findPost (updatePost m postId u) postId = some q ∧
        q.id = u.id.getD p.id ∧
        q.user_id = u.user_id.getD p.user_id ∧
        q.username = u.username.getD p.username ∧
        q.profile_pic_url = u.profile_pic_url.getD p.profile_pic_url ∧
        q.image_url = u.image_url.getD p.image_url ∧
        q.caption = u.caption.getD p.caption ∧
        q.like_count = u.like_count.getD p.like_count ∧
        q.is_liked = u.is_liked.getD p.is_liked ∧
        q.comment_count = u.comment_count.getD p.comment_count ∧
        q.created_at = u.created_at.getD p.created_at) ∧
    (∀ postId' : Nat, postId' ≠ postId →
      findPost (updatePost m postId u) postId' = findPost m postId') := by
  refine ⟨fun h => ?_, fun p hp => ?_, fun postId' h => findPost_updatePost_other m _ _ _ h⟩
  · unfold updatePost
    rw [h]
  · refine ⟨applyUpdates p u, ?_, rfl, rfl, rfl, rfl, rfl, rfl, rfl, rfl, rfl, rfl⟩
    rw [findPost_updatePost_self, hp]
    rfl

/-- A sample post used as concrete input in witnesses. -/
def samplePost : Post where
  id := 1
  user_id := 10
  username := "alice"
  profile_pic_url := ""
  image_url := "img"
  caption := "cap"
  like_count := 5
  is_liked := false
  comment_count := 2
  created_at := 0

/-- Witness for C6: the theorem applied to the one-entry cache
`[(1, samplePost)]`, target id 1, other id 2, the frame hypothesis
`2 ≠ 1` discharged by `decide`. -/
theorem updatePost_patch_semantics_witness :
    findPost (updatePost [(1, samplePost)] 1 { like_count := some 6 }) 2
      = findPost [(1, samplePost)] 2 :=
  (updatePost_patch_semantics [(1, samplePost)] 1 { like_count := some 6 }).2.2 2 (by decide)

/-! ## The optimistic mutation layer (`PostContext` actions)

Each action receives the outcome of its asynchronous network call as a
parameter (`net : Bool`, `true` = the call resolves) and returns the
final cache (`state`), how many network calls it issued (`netCalls`),
and whether it re-raised an error to its caller (`threw`). -/

/-- Result of an optimistic mutation action. -/
structure ActionResult where
  state : PostsMap
  netCalls : Nat
  threw : Bool
deriving DecidableEq, Repr

/-- The source function `likePost` of `PostProvider`: absent id → return at once (no state
change, no call, no error); otherwise optimistic set of
`is_liked := true` / incremented count, then the `like` call, reverting
both fields to the snapshot on failure. -/
def likePost (m : PostsMap) (postId : Nat) (net : Bool) : ActionResult :=
  match findPost m postId with
  | none => ⟨m, 0, false⟩
  | some post =>
    let wasLiked := post.is_liked
    let oldLikeCount := post.like_count
    let m1 := updatePost m postId
      { is_liked := some true,
        like_count := some (oldLikeCount + (if wasLiked then 0 else 1)) }
    if net then ⟨m1, 1, false⟩
    else ⟨updatePost m1 postId { is_liked := some wasLiked, like_count := some oldLikeCount },
      1, true⟩

/-- The source function `unlikePost` of `PostProvider`; the `Nat` subtraction models the
source's `Math.max(0, oldLikeCount - (wasLiked ? 1 : 0))`. -/
def unlikePost (m : PostsMap) (postId : Nat) (net : Bool) : ActionResult :=
  match findPost m postId with
  | none => ⟨m, 0, false⟩
  | some post =>
    let wasLiked := post.is_liked
    let oldLikeCount := post.like_count
    let m1 := updatePost m postId
      { is_liked := some false,
        like_count := some (oldLikeCount - (if wasLiked then 1 else 0)) }
    if net then ⟨m1, 1, false⟩
    else ⟨updatePost m1 postId { is_liked := some wasLiked, like_count := some oldLikeCount },
      1, true⟩

/-- The body of `toggleLike` from the point where the target post is
known: snapshot, optimistic flip (`Math.max(0, c - 1)` on unlike is the
truncated `Nat` subtraction), the like/unlike call, rollback of both
fields to the snapshot on failure. `preCalls` counts a fetch already
issued on the not-in-cache path. -/
def toggleLikeKnown (m : PostsMap) (postId : Nat) (post : Post) (net : Bool)
    (preCalls : Nat) : ActionResult :=
  let wasLiked := post.is_liked
  let oldLikeCount := post.like_count
  let m1 := updatePost m postId
    { is_liked := some (!wasLiked),
      like_count := some (if wasLiked then oldLikeCount - 1 else oldLikeCount + 1) }
  if net then ⟨m1, preCalls + 1, false⟩
  else ⟨updatePost m1 postId { is_liked := some wasLiked, like_count := some oldLikeCount },
    preCalls + 1, true⟩

/-- The source function `toggleLike` of `PostProvider`: if the post is not in the cache it
is first fetched (`fetch` is what `postAPI.getById` would resolve with,
`none` = the fetch rejects, which aborts the action); then the known
post is toggled optimistically and reconciled with the like/unlike
call. -/
def toggleLike (m : PostsMap) (postId : Nat) (fetch : Option Post) (net : Bool) :
    ActionResult :=
  match findPost m postId with
  | some post => toggleLikeKnown m postId post net 0
  | none =>
    match fetch with
    | none => ⟨m, 1, true⟩
    | some post => toggleLikeKnown (setPost m post) postId post net 1

/-- The source function `addComment` of `PostProvider`: absent id → return at once;
otherwise optimistic `comment_count + 1`, then the network call,
reverting the count on failure. -/
def addComment (m : PostsMap) (postId : Nat) (net : Bool) : ActionResult :=
  match findPost m postId with
  | none => ⟨m, 0, false⟩
  | some post =>
    let oldCommentCount := post.comment_count
    let m1 := updatePost m postId { comment_count := some (oldCommentCount + 1) }
    if net then ⟨m1, 1, false⟩
    else ⟨updatePost m1 postId { comment_count := some oldCommentCount }, 1, true⟩

section ToggleLemmas

/-- After the failure-path double `updatePost` of `toggleLikeKnown`,
the cache entry is exactly the snapshot post again. -/
lemma toggleLikeKnown_failure_restores (m : PostsMap) (postId : Nat) (p : Post)
    (preCalls : Nat) (h : findPost m postId = some p) :
    findPost (toggleLikeKnown m postId p false preCalls).state postId = some p := by
  unfold toggleLikeKnown
  simp only [if_neg (Bool.false_ne_true)]
  rw [findPost_updatePost_self, findPost_updatePost_self, h]
  cases p
  rfl

end ToggleLemmas

/-- The one-step optimistic toggle of `toggleLike` on a known post, as a
function on the entity: flip `is_liked`, decrement (clamped) or
increment `like_count`. -/
def toggledPost (p : Post) : Post :=
  applyUpdates p
    { is_liked := some (!p.is_liked),
      like_count := some (if p.is_liked then p.like_count - 1 else p.like_count + 1) }

lemma toggleLikeKnown_success_findPost (m : PostsMap) (postId : Nat) (p : Post)
    (preCalls : Nat) (h : findPost m postId = some p) :
    findPost (toggleLikeKnown m postId p true preCalls).state postId
      = some (toggledPost p) := by
  have e : (toggleLikeKnown m postId p true preCalls).state = updatePost m postId
      { is_liked := some (!p.is_liked),
        like_count := some (if p.is_liked then p.like_count - 1 else p.like_count + 1) } := rfl
  rw [e, findPost_updatePost_self, h]
  rfl

lemma toggleLike_success_findPost (m : PostsMap) (postId : Nat) (fetch : Option Post)
    (p : Post) (h : findPost m postId = some p) :
    findPost (toggleLike m postId fetch true).state postId = some (toggledPost p) := by
  unfold toggleLike
  rw [h]
  exact toggleLikeKnown_success_findPost m postId p 0 h

/-- Toggling twice undoes the toggle exactly when the like count is
consistent with the like flag (at least 1 when already liked): the
zero-clamp on unlike otherwise loses the inconsistency. -/
lemma toggledPost_toggledPost (p : Post) (hinv : p.is_liked = true → 1 ≤ p.like_count) :
    toggledPost (toggledPost p) = p := by
  obtain ⟨pid, puid, pun, ppp, piu, pcap, plc, pil, pcc, pca⟩ := p
  cases pil with
  | false => simp [toggledPost, applyUpdates]
  | true =>
    have h1 : 1 ≤ plc := hinv rfl
    simp [toggledPost, applyUpdates]
    omega

/-- C1: for every post present in the entity cache (any prior like state
and count), a failed `toggleLike` network call rolls `is_liked` and
`like_count` back to exactly the values snapshotted immediately before
this call's optimistic update — i.e. the entry equals the pre-call post
again — and the failure is re-raised. -/
theorem toggleLike_failure_rolls_back (m : PostsMap) (postId : Nat) (p : Post)
    (fetch : Option Post) (h : findPost m postId = some p) :
    ((findPost (toggleLike m postId fetch false).state postId).map Post.is_liked
        = some p.is_liked) ∧
    ((findPost (toggleLike m postId fetch false).state postId).map Post.like_count
        = some p.like_count) ∧
    findPost (toggleLike m postId fetch false).state postId = some p ∧
    (toggleLike m postId fetch false).threw = true := by
  have hstate : findPost (toggleLike m postId fetch false).state postId = some p := by
    unfold toggleLike
    rw [h]
    exact toggleLikeKnown_failure_restores m postId p 0 h
  have hthrew : (toggleLike m postId fetch false).threw = true := by
    unfold toggleLike
    rw [h]
    unfold toggleLikeKnown
    simp
  exact ⟨by rw [hstate]; rfl, by rw [hstate]; rfl, hstate, hthrew⟩

/-- Witness for C1: the spec §8 scenario state — the cache already holds
post 1 with `is_liked = true, like_count = 6` (the result of an earlier
successful toggle from `(false, 5)`); the failing toggle leaves
`(true, 6)`, the pre-this-call snapshot, not `(false, 5)`. -/
theorem toggleLike_failure_rolls_back_witness :
    ((findPost (toggleLike [(1, { samplePost with is_liked := true, like_count := 6 })] 1
        none false).state 1).map Post.is_liked = some true) ∧
    ((findPost (toggleLike [(1, { samplePost with is_liked := true, like_count := 6 })] 1
        none false).state 1).map Post.like_count = some 6) :=
  ⟨(toggleLike_failure_rolls_back [(1, { samplePost with is_liked := true, like_count := 6 })]
      1 { samplePost with is_liked := true, like_count := 6 } none rfl).1,
   (toggleLike_failure_rolls_back [(1, { samplePost with is_liked := true, like_count := 6 })]
      1 { samplePost with is_liked := true, like_count := 6 } none rfl).2.1⟩

/-- The inconsistent entity exhibiting the zero-clamp asymmetry of
`toggleLike`: already liked but with a like count of zero. -/
def clampPost : Post :=
  { samplePost with is_liked := true, like_count := 0 }

/-- Counterexample to C2 as stated: with the cache `[(1, clampPost)]`
(`is_liked = true`, `like_count = 0`), two successful `toggleLike`
calls do NOT restore the original values — the first call's unlike
clamps the count at 0, so the second call's like lands on
`like_count = 1 ≠ 0`. -/
theorem toggleLike_twice_not_always_round_trip :
    ¬ (∀ (m : PostsMap) (postId : Nat) (p : Post), findPost m postId = some p →
        ((findPost (toggleLike (toggleLike m postId none true).state postId none true).state
            postId).map Post.is_liked = some p.is_liked) ∧
        ((findPost (toggleLike (toggleLike m postId none true).state postId none true).state
            postId).map Post.like_count = some p.like_count)) := by
  intro hclaim
  have h := (hclaim [(1, clampPost)] 1 clampPost rfl).2
  have hval : (findPost (toggleLike (toggleLike [(1, clampPost)] 1 none true).state 1
      none true).state 1).map Post.like_count = some 1 := rfl
  rw [hval] at h
  exact absurd h (by decide)

/-- C2 (amended): for every post present in the entity cache whose like
count is consistent with its like flag (`like_count ≥ 1` whenever
`is_liked` is already true — the invariant of correctly-sequenced server
data), calling `toggleLike` twice with both network calls succeeding
returns `is_liked` to S and `like_count` to C (indeed the whole entry to
its original value). For the excluded inconsistent state the unlike
clamp makes the round trip land on count 1. -/
theorem toggleLike_twice_success_round_trip (m : PostsMap) (postId : Nat) (p : Post)
    (f1 f2 : Option Post) (h : findPost m postId = some p)
    (hinv : p.is_liked = true → 1 ≤ p.like_count) :
    ((findPost (toggleLike (toggleLike m postId f1 true).state postId f2 true).state
        postId).map Post.is_liked = some p.is_liked) ∧
    ((findPost (toggleLike (toggleLike m postId f1 true).state postId f2 true).state
        postId).map Post.like_count = some p.like_count) ∧
    findPost (toggleLike (toggleLike m postId f1 true).state postId f2 true).state postId
      = some p := by
  have h1 := toggleLike_success_findPost m postId f1 p h
  have h2 := toggleLike_success_findPost (toggleLike m postId f1 true).state postId f2
    (toggledPost p) h1
  have hfinal : findPost (toggleLike (toggleLike m postId f1 true).state postId f2
      true).state postId = some p := by
    rw [h2, toggledPost_toggledPost p hinv]
  exact ⟨by rw [hfinal]; rfl, by rw [hfinal]; rfl, hfinal⟩

/-- Witness for C2: the spec §8 state `(is_liked = false, like_count = 5)`;
both hypotheses discharged concretely, the double toggle restores
`(false, 5)`. -/
theorem toggleLike_twice_success_round_trip_witness :
    findPost (toggleLike (toggleLike [(1, samplePost)] 1 none true).state 1 none true).state 1
      = some samplePost :=
  (toggleLike_twice_success_round_trip [(1, samplePost)] 1 samplePost none none rfl
    (by decide)).2.2

/-- C10: for a post identifier absent from the entity cache, `likePost`,
`unlikePost` and `addComment` return immediately — unchanged cache, no
network call, no error signalled — while `toggleLike` instead issues at
least one network call (the fetch of the missing entity). -/
theorem absent_post_actions_are_silent_no_ops (m : PostsMap) (postId : Nat)
    (net : Bool) (fetch : Option Post) (h : findPost m postId = none) :
    likePost m postId net = ⟨m, 0, false⟩ ∧
    unlikePost m postId net = ⟨m, 0, false⟩ ∧
    addComment m postId net = ⟨m, 0, false⟩ ∧
    1 ≤ (toggleLike m postId fetch net).netCalls := by
  refine ⟨?_, ?_, ?_, ?_⟩
  · unfold likePost
    rw [h]
  · unfold unlikePost
    rw [h]
  · unfold addComment
    rw [h]
  · unfold toggleLike
    rw [h]
    cases fetch with
    | none => exact Nat.le_refl 1
    | some post =>
      unfold toggleLikeKnown
      cases net <;> simp

/-- Witness for C10: the empty cache and id 1 (absence discharged by
`rfl`), with a failing network environment. -/
theorem absent_post_actions_are_silent_no_ops_witness :
    likePost [] 1 false = ⟨[], 0, false⟩ ∧
    unlikePost [] 1 false = ⟨[], 0, false⟩ ∧
    addComment [] 1 false = ⟨[], 0, false⟩ ∧
    1 ≤ (toggleLike [] 1 none false).netCalls :=
  absent_post_actions_are_silent_no_ops [] 1 false none rfl

/-! ## The feed / list coordinator

`addToFeed` of `PostProvider` builds a JS `Set` from the previous list
(which iterates in insertion order and ignores re-inserted members),
adds the new ids, and converts back to an array.  This is a fold of a
first-occurrence-wins insertion over `prev ++ postIds`. -/

/-- One JS `Set.add`: append the element unless already a member. -/
def addUnique (acc : List Nat) (x : Nat) : List Nat :=
  if x ∈ acc then acc else acc ++ [x]

/-- The source function `addToFeed` of `PostProvider`:
`Array.from(new Set(prev) with postIds added)`. -/
def addToFeed (prev postIds : List Nat) : List Nat :=
  (prev ++ postIds).foldl addUnique []

/-- First-occurrence-wins deduplication of `l` against the already-seen
ids `seen` (specification of what the `Set` fold appends). -/
def dedupFirstAux (seen : List Nat) : List Nat → List Nat
  | [] => []
  | x :: xs => if x ∈ seen then dedupFirstAux seen xs else x :: dedupFirstAux (x :: seen) xs

section FeedLemmas

lemma mem_addUnique (acc : List Nat) (x y : Nat) :
    y ∈ addUnique acc x ↔ y ∈ acc ∨ y = x := by
  unfold addUnique
  by_cases h : x ∈ acc
  · simp only [if_pos h]
    constructor
    · exact Or.inl
    · rintro (hy | rfl)
      · exact hy
      · exact h
  · simp [if_neg h]

lemma nodup_addUnique (acc : List Nat) (x : Nat) (h : acc.Nodup) :
    (addUnique acc x).Nodup := by
  unfold addUnique
  by_cases hx : x ∈ acc
  · simpa [if_pos hx]
  · simp [if_neg hx, List.nodup_append, h, hx]

lemma nodup_foldl_addUnique (l : List Nat) :
    ∀ acc : List Nat, acc.Nodup → (l.foldl addUnique acc).Nodup := by
  induction l with
  | nil => exact fun acc h => h
  | cons x xs ih => exact fun acc h => ih (addUnique acc x) (nodup_addUnique acc x h)

lemma dedupFirstAux_congr (l : List Nat) :
    ∀ s t : List Nat, (∀ y, y ∈ s ↔ y ∈ t) → dedupFirstAux s l = dedupFirstAux t l := by
  induction l with
  | nil => intro s t _; rfl
  | cons x xs ih =>
    intro s t hst
    unfold dedupFirstAux
    by_cases hx : x ∈ s
    · rw [if_pos hx, if_pos ((hst x).mp hx)]
      exact ih s t hst
    · rw [if_neg hx, if_neg (fun hc => hx ((hst x).mpr hc))]
      refine congrArg (x :: ·) (ih _ _ ?_)
      intro y
      simp [hst y]

lemma foldl_addUnique_eq_append (l : List Nat) :
    ∀ acc : List Nat, l.foldl addUnique acc = acc ++ dedupFirstAux acc l := by
  induction l with
  | nil => intro acc; simp [dedupFirstAux]
  | cons x xs ih =>
    intro acc
    simp only [List.foldl_cons]
    by_cases hx : x ∈ acc
    · have e1 : addUnique acc x = acc := by unfold addUnique; rw [if_pos hx]
      have e2 : dedupFirstAux acc (x :: xs) = dedupFirstAux acc xs := by
        simp only [dedupFirstAux]; rw [if_pos hx]
      rw [e1, e2, ih acc]
    · have e1 : addUnique acc x = acc ++ [x] := by unfold addUnique; rw [if_neg hx]
      have e2 : dedupFirstAux acc (x :: xs) = x :: dedupFirstAux (x :: acc) xs := by
        simp only [dedupFirstAux]; rw [if_neg hx]
      rw [e1, e2, ih (acc ++ [x]),
        dedupFirstAux_congr xs (acc ++ [x]) (x :: acc) (by intro y; simp; tauto)]
      simp

lemma mem_dedupFirstAux (l : List Nat) :
    ∀ seen : List Nat, ∀ y ∈ dedupFirstAux seen l, y ∈ l ∧ y ∉ seen := by
  induction l with
  | nil => intro seen y hy; cases hy
  | cons x xs ih =>
    intro seen y hy
    unfold dedupFirstAux at hy
    by_cases hx : x ∈ seen
    · rw [if_pos hx] at hy
      obtain ⟨h1, h2⟩ := ih seen y hy
      exact ⟨List.mem_cons_of_mem x h1, h2⟩
    · rw [if_neg hx] at hy
      rcases List.mem_cons.mp hy with rfl | hy
      · exact ⟨List.mem_cons_self y xs, hx⟩
      · obtain ⟨h1, h2⟩ := ih (x :: seen) y hy
        exact ⟨List.mem_cons_of_mem x h1, fun hc => h2 (List.mem_cons_of_mem x hc)⟩

lemma dedupFirstAux_of_nodup (l : List Nat) :
    ∀ seen : List Nat, l.Nodup → (∀ x ∈ l, x ∉ seen) → dedupFirstAux seen l = l := by
  induction l with
  | nil => intro seen _ _; rfl
  | cons x xs ih =>
    intro seen hnd hdisj
    unfold dedupFirstAux
    rw [if_neg (hdisj x (List.mem_cons_self x xs))]
    refine congrArg (x :: ·) (ih (x :: seen) (List.Nodup.of_cons hnd) ?_)
    intro y hy
    have hyx : y ≠ x := fun hc => (List.nodup_cons.mp hnd).1 (hc ▸ hy)
    simp only [List.mem_cons]
    rintro (hc | hc)
    · exact hyx hc
    · exact hdisj y (List.mem_cons_of_mem x hy) hc

lemma dedupFirstAux_of_subset (l : List Nat) :
    ∀ seen : List Nat, (∀ x ∈ l, x ∈ seen) → dedupFirstAux seen l = [] := by
  induction l with
  | nil => intro seen _; rfl
  | cons x xs ih =>
    intro seen hsub
    unfold dedupFirstAux
    rw [if_pos (hsub x (List.mem_cons_self x xs))]
    exact ih seen fun y hy => hsub y (List.mem_cons_of_mem x hy)

lemma addToFeed_of_nodup (prev ids : List Nat) (h : prev.Nodup) :
    addToFeed prev ids = prev ++ dedupFirstAux prev ids := by
  unfold addToFeed
  rw [List.foldl_append, foldl_addUnique_eq_append prev [],
    dedupFirstAux_of_nodup prev [] h (by simp), List.nil_append,
    foldl_addUnique_eq_append ids prev]

end FeedLemmas

/-- C5: `addToFeed` deduplicates appended ids against the list's
membership treated as a set: (i) from an empty feed, appending `[a,b]`
then `[b,c]` (distinct ids) yields `[a,b,c]`, never `[a,b,c,b]`;
(ii) the result never contains duplicates; (iii) on a duplicate-free
feed the previous ids keep their original positions (the result is
`prev` followed by only the genuinely new ids, first appearance wins);
(iv) appending only already-present ids leaves the list unchanged. -/
theorem addToFeed_set_semantics (prev ids : List Nat) (a b c : Nat)
    (hab : a ≠ b) (hbc : b ≠ c) (hac : a ≠ c) :
    addToFeed (addToFeed [] [a, b]) [b, c] = [a, b, c] ∧
    (addToFeed prev ids).Nodup ∧
    (prev.Nodup → addToFeed prev ids = prev ++ dedupFirstAux prev ids ∧
      ∀ x ∈ dedupFirstAux prev ids, x ∉ prev ∧ x ∈ ids) ∧
    (prev.Nodup → (∀ x ∈ ids, x ∈ prev) → addToFeed prev ids = prev) := by
  refine ⟨?_, ?_, fun h => ⟨addToFeed_of_nodup prev ids h, ?_⟩, fun h hsub => ?_⟩
  · simp [addToFeed, addUnique, hab, hbc, hac, hab.symm, hbc.symm, hac.symm]
  · exact nodup_foldl_addUnique (prev ++ ids) [] List.nodup_nil
  · intro x hx
    exact ⟨(mem_dedupFirstAux ids prev x hx).2, (mem_dedupFirstAux ids prev x hx).1⟩
  · rw [addToFeed_of_nodup prev ids h, dedupFirstAux_of_subset ids prev hsub,
      List.append_nil]

/-- Witness for C5: the theorem at `prev = [1,2]`, `ids = [2,2]`,
`(a,b,c) = (1,2,3)`; the distinctness, `Nodup` and subset hypotheses
discharged by `decide`. -/
theorem addToFeed_set_semantics_witness :
    addToFeed (addToFeed [] [1, 2]) [2, 3] = [1, 2, 3] ∧
    addToFeed [1, 2] [2, 2] = [1, 2] :=
  ⟨(addToFeed_set_semantics [1, 2] [2, 2] 1 2 3 (by decide) (by decide) (by decide)).1,
   (addToFeed_set_semantics [1, 2] [2, 2] 1 2 3 (by decide) (by decide) (by decide)).2.2.2
     (by decide) (by decide)⟩

/-! ## Store-wide state and delete actions

The provider also keeps the ordered feed list and the per-user post
lists.  `deletePost` and `deleteComment` are consumed from the context by
`PostDetail`, `Profile`, the post card and `CommentList`, but their
implementations are not among the provided `PostContext` sources; they
are modelled from the specification. -/

/-- The shared client store: the entity cache, the global feed list of
ids, and the per-user post-id lists keyed by username. -/
structure StoreState where
  posts : PostsMap
  feedPosts : List Nat
  userPosts : List (String × List Nat)
deriving DecidableEq, Repr

/-- Modelled from the spec: the `deletePost` context action is called by
`PostDetail`/`Profile`/the post card but its `PostContext` implementation
is not among the provided sources.  Per spec §4.2, delete-post "removes
the identifier from every list that references it and removes the entity
from the cache"; failure is not rolled back (the removal stands, the
failure is only reported), so the state transform is the same for both
network outcomes and `threw` mirrors the call result. -/
def deletePost (s : StoreState) (postId : Nat) (net : Bool) : StoreState × Bool :=
  (⟨s.posts.filter (fun e => e.1 ≠ postId),
    s.feedPosts.filter (fun pid => pid ≠ postId),
    s.userPosts.map (fun e => (e.1, e.2.filter (fun pid => pid ≠ postId)))⟩,
   !net)

/-- Modelled from the spec: the `deleteComment` context action is called
by `CommentList` but its implementation is not among the provided
sources.  Per spec §4.2 the comment-count is the only optimistically
patched field and per spec §9 the delete path performs no rollback. -/
def deleteComment (m : PostsMap) (commentId postId : Nat) (net : Bool) : ActionResult :=
  let _ := commentId
  match findPost m postId with
  | none => ⟨m, 0, false⟩
  | some post =>
    ⟨updatePost m postId { comment_count := some (post.comment_count - 1) }, 1, !net⟩

section DeleteLemmas

lemma findPost_filter_ne (m : PostsMap) (postId : Nat) :
    findPost (m.filter (fun e => e.1 ≠ postId)) postId = none := by
  induction m with
  | nil => rfl
  | cons e rest ih =>
    obtain ⟨k, p⟩ := e
    rw [List.filter_cons]
    by_cases h : k = postId
    · rw [if_neg (by simp [h])]
      exact ih
    · rw [if_pos (by simp [h]), findPost, if_neg h]
      exact ih

end DeleteLemmas

/-- C3: deleting a post removes its identifier from the global feed and
from every per-user post list, and removes the entity from the cache, so
a subsequent `getPost` on that identifier returns absent — for either
network outcome. -/
theorem deletePost_removes_everywhere (s : StoreState) (postId : Nat) (net : Bool) :
    findPost (deletePost s postId net).1.posts postId = none ∧
    postId ∉ (deletePost s postId net).1.feedPosts ∧
    ∀ e ∈ (deletePost s postId net).1.userPosts, postId ∉ e.2 := by
  refine ⟨findPost_filter_ne s.posts postId, ?_, ?_⟩
  · intro hc
    exact absurd (List.of_mem_filter hc) (by simp)
  · intro e he hc
    obtain ⟨e0, _, rfl⟩ := List.mem_map.mp he
    exact absurd (List.of_mem_filter hc) (by simp)

/-! ## UI action handlers and the authentication precondition

The mutating actions are only reachable through the UI handlers
(`handleLike` / `handleComment` / `handleDelete` / `handleDeleteComment`
in the post card, `PostDetail` and `CommentList`), each of which refuses
the action locally when no authenticated session exists.  The session is
modelled as `Option Nat` (the authenticated user id; `none` = no
session).  The refusal outcome is instrumented: the JS handlers simply
`return`, observably identical for every refusal; the label records
whether the refusal came from the missing session. -/

/-- Outcome of a UI handler: refused locally for lack of a session,
refused locally for another reason (empty comment text, non-owner,
unconfirmed dialog), or proceeded into the mutation layer. -/
inductive HandlerOutcome
  | unauthenticated
  | refused
  | proceeded
deriving DecidableEq, Repr

/-- Result of a UI handler: final store, number of network calls issued,
and the outcome. -/
structure HandlerResult where
  state : StoreState
  netCalls : Nat
  outcome : HandlerOutcome
deriving DecidableEq, Repr

/-- The source function `handleLike` of the post card / `PostDetail`: refuse without a
session ("Please login to like posts"), otherwise run `toggleLike`
(errors are caught and swallowed at the handler). -/
def handleLike (session : Option Nat) (s : StoreState) (postId : Nat)
    (fetch : Option Post) (net : Bool) : HandlerResult :=
  match session with
  | none => ⟨s, 0, .unauthenticated⟩
  | some _ =>
    let r := toggleLike s.posts postId fetch net
    ⟨{ s with posts := r.state }, r.netCalls, .proceeded⟩

/-- The source function `handleComment` of the post card / `PostDetail`: the source guard is
`if (!commentText.trim() || !isAuthenticated) return;`; both refusals
are a bare `return`, labelled here by their reason. -/
def handleComment (session : Option Nat) (s : StoreState) (postId : Nat)
    (text : String) (net : Bool) : HandlerResult :=
  match session with
  | none => ⟨s, 0, .unauthenticated⟩
  | some _ =>
    if text.trim = "" then ⟨s, 0, .refused⟩
    else
      let r := addComment s.posts postId net
      ⟨{ s with posts := r.state }, r.netCalls, .proceeded⟩

/-- The source function `handleDelete` of `PostDetail`: the source guard is
`if (!isOwnPost) return;` with
`isOwnPost = isAuthenticated && user && post && post.user_id === user.id`,
followed by a confirmation dialog; refusals are labelled by reason. -/
def handleDelete (session : Option Nat) (s : StoreState) (postId : Nat)
    (confirmed : Bool) (net : Bool) : HandlerResult :=
  match session with
  | none => ⟨s, 0, .unauthenticated⟩
  | some uid =>
    match findPost s.posts postId with
    | none => ⟨s, 0, .refused⟩
    | some post =>
      if post.user_id = uid then
        if confirmed then
          let r := deletePost s postId net
          ⟨r.1, 1, .proceeded⟩
        else ⟨s, 0, .refused⟩
      else ⟨s, 0, .refused⟩

/-- The source function `handleDeleteComment` of `CommentList`: refuse without a session
("Please login to delete comments"), then the confirmation dialog, then
the `deleteComment` context action. -/
def handleDeleteComment (session : Option Nat) (s : StoreState) (commentId postId : Nat)
    (confirmed : Bool) (net : Bool) : HandlerResult :=
  match session with
  | none => ⟨s, 0, .unauthenticated⟩
  | some _ =>
    if confirmed then
      let r := deleteComment s.posts commentId postId net
      ⟨{ s with posts := r.state }, r.netCalls, .proceeded⟩
    else ⟨s, 0, .refused⟩

/-- C4: with no authenticated session, each mutating action's handler
(toggle-like, add-comment, delete-post, delete-comment) fails
immediately with the unauthenticated outcome, leaves the store
untouched, and issues no network call. -/
theorem no_session_refuses_all_mutations (s : StoreState) (postId commentId : Nat)
    (text : String) (confirmed : Bool) (fetch : Option Post) (net : Bool) :
    handleLike none s postId fetch net = ⟨s, 0, .unauthenticated⟩ ∧
    handleComment none s postId text net = ⟨s, 0, .unauthenticated⟩ ∧
    handleDelete none s postId confirmed net = ⟨s, 0, .unauthenticated⟩ ∧
    handleDeleteComment none s commentId postId confirmed net
      = ⟨s, 0, .unauthenticated⟩ :=
  ⟨rfl, rfl, rfl, rfl⟩

/-! ## The pagination driver (`Feed.jsx`)

State: 1-based page number, the server-supplied `hasMore` flag, and the
`loadingMore` in-flight flag.  A fetch is triggered (via the
`useEffect` on `page`) exactly when `handleLoadMore` advances the page;
`handleLoadMore` is
`if (!loadingMore && hasMore) setPage((prev) => prev + 1)`. -/

/-- Pagination state of the feed page. -/
structure FeedPageState where
  page : Nat
  hasMore : Bool
  loadingMore : Bool
deriving DecidableEq, Repr

/-- The source function `handleLoadMore` of `Feed.jsx`: advance the page (triggering a new
fetch, reported as the `Bool`) only when no page fetch is in flight and
more pages are available. -/
def handleLoadMore (st : FeedPageState) : FeedPageState × Bool :=
  if !st.loadingMore && st.hasMore then
    ({ st with page := st.page + 1 }, true)
  else (st, false)

/-- C7: requesting the next page is a no-op while a fetch is in flight
or once `hasMore` is false — the page does not advance and no fetch is
issued — and with `hasMore` false this stays true under any number of
repeated load-more calls. -/
theorem handleLoadMore_no_op (st : FeedPageState)
    (h : st.loadingMore = true ∨ st.hasMore = false) :
    handleLoadMore st = (st, false) ∧
    (st.hasMore = false → ∀ n : Nat,
      (fun s => (handleLoadMore s).1)^[n] st = st) := by
  have hstep : handleLoadMore st = (st, false) := by
    unfold handleLoadMore
    rcases h with h | h <;> rw [h] <;> simp
  refine ⟨hstep, fun hm n => ?_⟩
  induction n with
  | zero => rfl
  | succ k ih =>
    rw [Function.iterate_succ_apply, show (handleLoadMore st).1 = st by
      unfold handleLoadMore; rw [hm]; simp]
    exact ih

/-- Witness for C7: the state `page = 2, hasMore = false,
loadingMore = false`; three repeated load-more calls leave it fixed. -/
theorem handleLoadMore_no_op_witness :
    handleLoadMore ⟨2, false, false⟩ = (⟨2, false, false⟩, false) ∧
    (fun s => (handleLoadMore s).1)^[3] ⟨2, false, false⟩ = ⟨2, false, false⟩ :=
  ⟨(handleLoadMore_no_op ⟨2, false, false⟩ (Or.inr rfl)).1,
   (handleLoadMore_no_op ⟨2, false, false⟩ (Or.inr rfl)).2 rfl 3⟩

/-! ## The session store (`AuthContext`)

In-memory session (`token`, `user`) plus the persisted copies in
`localStorage`; token values and user records are represented by
opaque `Nat` codes.  `jwtDecode` and `JSON.parse` are parameters:
`decodeExp t = none` models a decode that throws, `parseUser u = none` a
parse that throws. -/

/-- Session state: in-memory token and user, and their `localStorage`
copies. -/
structure AuthState where
  token : Option Nat
  user : Option Nat
  storedToken : Option Nat
  storedUser : Option Nat
deriving DecidableEq, Repr

/-- The source expression `isAuthenticated` of `AuthProvider`: `!!token && !!user`. -/
def isAuthenticatedState (st : AuthState) : Bool :=
  st.token.isSome && st.user.isSome

/-- The `AuthProvider` mount effect: restore the stored session only if
both parts are present and the decoded credential expiry is strictly
after the current time; an expired credential, a token that fails to
decode, or a user payload that fails to parse clears the storage (in the
last case the token state was already set inside the `try`, but the
session still ends unauthenticated because `user` stays `null`). -/
def initAuth (storedToken storedUser : Option Nat) (decodeExp : Nat → Option Int)
    (parseUser : Nat → Option Nat) (now : Int) : AuthState :=
  match storedToken, storedUser with
  | some t, some u =>
    (match decodeExp t with
     | some exp =>
       if exp > now then
         match parseUser u with
         | some usr => ⟨some t, some usr, some t, some u⟩
         | none => ⟨some t, none, none, none⟩
       else ⟨none, none, none, none⟩
     | none => ⟨none, none, none, none⟩)
  | t0, u0 => ⟨none, none, t0, u0⟩

/-- C8: a stored session whose decoded expiry is not strictly after the
current load time is never restored: the stored token and user are
cleared and the session starts unauthenticated. -/
theorem expired_session_never_restored (t u : Nat) (decodeExp : Nat → Option Int)
    (parseUser : Nat → Option Nat) (now exp : Int)
    (hdec : decodeExp t = some exp) (hexp : exp ≤ now) :
    initAuth (some t) (some u) decodeExp parseUser now = ⟨none, none, none, none⟩ ∧
    isAuthenticatedState (initAuth (some t) (some u) decodeExp parseUser now) = false := by
  have h : initAuth (some t) (some u) decodeExp parseUser now = ⟨none, none, none, none⟩ := by
    simp only [initAuth, hdec]
    rw [if_neg (not_lt.mpr hexp)]
  exact ⟨h, by rw [h]; rfl⟩

/-- Witness for C8: token 1 decoding to expiry 5 at load time 5 (not
strictly in the future), stored user 7; both hypotheses discharged
concretely. -/
theorem expired_session_never_restored_witness :
    initAuth (some 1) (some 7) (fun _ => some 5) (fun _ => some 7) 5
      = ⟨none, none, none, none⟩ ∧
    isAuthenticatedState (initAuth (some 1) (some 7) (fun _ => some 5) (fun _ => some 7) 5)
      = false :=
  expired_session_never_restored 1 7 (fun _ => some 5) (fun _ => some 7) 5 5 rfl
    (by omega)

/-- The source function `signup` of `AuthProvider` (primary version of the file): on
success the stored token/user are removed and the in-memory token/user
are set to `null` ("do NOT store token or user data; user must login
separately"); on failure the state is untouched and an error result is
returned. The `Bool` result is the `success` field. -/
def signup (st : AuthState) (net : Bool) : AuthState × Bool :=
  if net then (⟨none, none, none, none⟩, true) else (st, false)

/-- The source function `login` of `AuthProvider`: a successful response stores the token
and user both in memory and in `localStorage`. -/
def login (st : AuthState) (response : Option (Nat × Nat)) : AuthState × Bool :=
  match response with
  | some (tok, usr) => (⟨some tok, some usr, some tok, some usr⟩, true)
  | none => (st, false)

/-- C9: a successful signup never produces an authenticated session:
whatever the prior state, afterwards no token and no user are stored (in
memory or in storage) and the session is unauthenticated — until a
separate successful login, which does authenticate. -/
theorem signup_leaves_unauthenticated (st : AuthState) (tok usr : Nat) :
    (signup st true).1 = ⟨none, none, none, none⟩ ∧
    isAuthenticatedState (signup st true).1 = false ∧
    isAuthenticatedState (login (signup st true).1 (some (tok, usr))).1 = true :=
  ⟨rfl, rfl, rfl⟩

/-- Witness for C3: the theorem applied to a concrete store — post 1 in
the cache, in the feed `[1, 2]` and in alice's list — checking the cache
lookup and the feed membership after deletion. -/
theorem deletePost_removes_everywhere_witness :
    findPost (deletePost ⟨[(1, samplePost)], [1, 2], [("alice", [1])]⟩ 1 true).1.posts 1
      = none ∧
    1 ∉ (deletePost ⟨[(1, samplePost)], [1, 2], [("alice", [1])]⟩ 1 true).1.feedPosts :=
  ⟨(deletePost_removes_everywhere ⟨[(1, samplePost)], [1, 2], [("alice", [1])]⟩ 1 true).1,
   (deletePost_removes_everywhere ⟨[(1, samplePost)], [1, 2], [("alice", [1])]⟩ 1 true).2.1⟩
